import Mathlib

/-!
Formal model of the TourBooking Express application (src/app.js).

The file embeds, as executable Lean definitions, the middleware stack and
the tour controller of src/app.js: the alias middleware, the aggregation
pipelines (tour stats, monthly plan), the geo handlers (tours-within,
distances), the unmatched-route catch-all, the rate limiter configuration
and the body-size cap.  Numbers that are fractional in the source are
modelled as rationals; JS `undefined` is modelled as `Option.none`.
-/

namespace TourBooking

/-- Model of the `AppError` value as constructed at its call sites in
src/app.js: a human-readable message together with an HTTP status code. -/
structure AppError where
  message : String
  statusCode : Nat
deriving Repr, DecidableEq

/-- JS truthiness test for the `Option String` results of array
destructuring: `undefined` (here `none`) and the empty string are falsy;
every nonempty string is truthy. -/
def falsyStr : Option String → Bool
  | none => true
  | some s => s = ""

/-- Splitter for JS `String.prototype.split(sep)` over the character list of
the string: every occurrence of `sep` starts a new chunk, and the empty
string splits into one empty chunk, exactly as in JS. -/
def splitCharAux (sep : Char) : List Char → List Char → List (List Char)
  | [], acc => [acc.reverse]
  | x :: xs, acc =>
      if x = sep then acc.reverse :: splitCharAux sep xs []
      else splitCharAux sep xs (x :: acc)

/-- JS `latlng.split(',')` as a list of strings. -/
def splitComma (s : String) : List String :=
  (splitCharAux ',' s.data []).map (fun l => String.mk l)

/-- The first component of `const [lat, lng] = latlng.split(',')`:
element 0 of the split, `none` when absent. -/
def latOf (latlng : String) : Option String :=
  (splitComma latlng).get? 0

/-- The second component of `const [lat, lng] = latlng.split(',')`:
element 1 of the split, `none` when absent (JS `undefined`). -/
def lngOf (latlng : String) : Option String :=
  (splitComma latlng).get? 1

/-- Line 269 of src/app.js:
`const radius = unit === 'mi' ? distance / 3963.2 : distance / 6378.1;`. -/
def radiusOf (unit : String) (distance : ℚ) : ℚ :=
  if unit = "mi" then distance / 3963.2 else distance / 6378.1

/-- Line 295 of src/app.js:
`const multiplier = unit === 'mi' ? 0.000621371 : 0.001;`. -/
def multiplierOf (unit : String) : ℚ :=
  if unit = "mi" then 0.000621371 else 0.001

/-- Execution trace of one run of the `getToursWithin` handler: the errors
passed to the `next` continuation, whether the `Tour.find` geo query was
executed, the radius handed to the `$centerSphere` filter, and the JSON
response built at the end (HTTP status, envelope status, data). -/
structure ToursWithinTrace (α : Type) where
  emitted : List AppError
  queryRan : Bool
  radiusUsed : ℚ
  response : Option (Nat × String × List α)
deriving Repr, DecidableEq

/-- The `getToursWithin` handler (src/app.js lines 265-289), straight-line
as written.  `find lng lat r` stands for
`Tour.find({startLocation: {$geoWithin: {$centerSphere: [[lng, lat], r]}}})`.
The source calls `next(new AppError(...))` in the validation branch WITHOUT
a `return`, so execution continues into the query and the 200 response;
the trace therefore records the emitted error and still runs the rest. -/
def getToursWithin {α : Type} (find : Option String → Option String → ℚ → List α)
    (distance : ℚ) (latlng unit : String) : ToursWithinTrace α :=
  let lat := latOf latlng
  let lng := lngOf latlng
  let radius := radiusOf unit distance
  let emitted :=
    if falsyStr lat || falsyStr lng then
      [AppError.mk "Please provide latitude and longitude in the format lat,lng." 400]
    else []
  let tours := find lng lat radius
  { emitted := emitted
    queryRan := true
    radiusUsed := radius
    response := some (200, "success", tours) }

/-- Execution trace of one run of the `getDistances` handler: errors passed
to `next`, whether the `$geoNear` aggregation ran, the distance multiplier
used, and the rows of the 200 response. -/
structure DistancesTrace (β : Type) where
  emitted : List AppError
  queryRan : Bool
  multiplierUsed : ℚ
  response : Option (Nat × String × List β)
deriving Repr, DecidableEq

/-- BSON-style field value: enough of the value universe for the documents
the distances pipeline handles (numbers, strings, GeoJSON points). -/
inductive BVal where
  | num (q : ℚ)
  | str (s : String)
  | pt (lng lat : ℚ)
deriving Repr, DecidableEq

/-- A document of the tour collection as the aggregation pipeline sees it:
an ordered association list of field name to value. -/
abbrev GeoDoc : Type := List (String × BVal)

/-- The list of field names present in a document. -/
def docKeys (d : GeoDoc) : List String := d.map Prod.fst

/-- Overwriting, in place, every field named `k` with the value `v`. -/
def overwriteField (k : String) (v : BVal) : GeoDoc → GeoDoc
  | [] => []
  | (k1, v1) :: t =>
      if k1 = k then (k, v) :: overwriteField k v t
      else (k1, v1) :: overwriteField k v t

/-- Setting a field on a document, as `$geoNear` does with `distanceField`:
an existing field of that name is overwritten in place, otherwise the field
is appended. -/
def setField (d : GeoDoc) (k : String) (v : BVal) : GeoDoc :=
  if (docKeys d).contains k then overwriteField k v d
  else d ++ [(k, v)]

/-- MongoDB inclusion projection `$project` with the given included field
names: every listed field of the document is kept, and the `_id` field is
retained by default (excluding it would need an explicit `_id: 0`, which
src/app.js does not write). -/
def projectInclude (keys : List String) (d : GeoDoc) : GeoDoc :=
  d.filter (fun kv => kv.1 == "_id" || keys.contains kv.1)

/-- Insertion of one element into a sorted list, for the `$geoNear`
nearest-first ordering. -/
def insertLeBy {α : Type} (le : α → α → Bool) (x : α) : List α → List α
  | [] => [x]
  | y :: ys => if le x y then x :: y :: ys else y :: insertLeBy le x ys

/-- Insertion sort by the given comparison. -/
def sortLeBy {α : Type} (le : α → α → Bool) : List α → List α
  | [] => []
  | x :: xs => insertLeBy le x (sortLeBy le xs)

/-- The `getDistances` handler (src/app.js lines 291-331), straight-line as
written.  `distMeters lng lat d` abstracts the spherical distance in meters
computed by `$geoNear` from the center point with the given raw `lng`/`lat`
path strings (the JS `* 1` numeric coercion of those strings happens inside
the query and is absorbed into this abstracted metric) to the document's
indexed location.  `$geoNear` orders documents nearest first, stores
`distMeters · · d * multiplier` in the `distance` field, and the
`$project: \x7b distance: 1, name: 1 \x7d` stage then keeps `distance`,
`name` and the default-retained `_id`.  As in `getToursWithin`, the
missing-coordinate branch calls `next(new AppError(...))` without `return`,
so the aggregation and the 200 response still happen. -/
def getDistances (distMeters : Option String → Option String → GeoDoc → ℚ)
    (docs : List GeoDoc) (latlng unit : String) : DistancesTrace GeoDoc :=
  let lat := latOf latlng
  let lng := lngOf latlng
  let multiplier := multiplierOf unit
  let emitted :=
    if falsyStr lat || falsyStr lng then
      [AppError.mk "Please provide latitude and longitude in the format lat,lng." 400]
    else []
  let near := sortLeBy (fun a b => decide (a.1 ≤ b.1))
    (docs.map (fun d => (distMeters lng lat d, d)))
  let rows := near.map (fun p =>
    projectInclude ["distance", "name"]
      (setField p.2 "distance" (BVal.num (p.1 * multiplier))))
  { emitted := emitted
    queryRan := true
    multiplierUsed := multiplier
    response := some (200, "success", rows) }

/-- The `aliasTopTours` middleware (src/app.js lines 171-176).  The request
query is a mapping from key to optional string value; the middleware
overwrites the three keys `limit`, `sort`, `fields` with fixed values. -/
def setQueryKey (q : String → Option String) (k v : String) : String → Option String :=
  fun x => if x = k then some v else q x

/-- Middleware `aliasTopTours`: `req.query.limit = '5'`,
`req.query.sort = '-ratingsAverage,price'`,
`req.query.fields = 'name,price,ratingsAverage,summary,difficulty'`. -/
def aliasTopTours (q : String → Option String) : String → Option String :=
  setQueryKey
    (setQueryKey (setQueryKey q "limit" "5") "sort" "-ratingsAverage,price")
    "fields" "name,price,ratingsAverage,summary,difficulty"

/-- A UTC point in time with millisecond resolution, as MongoDB stores
dates: calendar year, month (1-12), day, and milliseconds elapsed within
the day.  Comparison is lexicographic, matching timestamp order for valid
dates. -/
structure DateTime where
  year : Nat
  month : Nat
  day : Nat
  msOfDay : Nat
deriving Repr, DecidableEq

/-- Timestamp order on `DateTime`: lexicographic on year, month, day,
millisecond of day. -/
def DateTime.le (a b : DateTime) : Bool :=
  decide (a.year < b.year) ||
    (decide (a.year = b.year) &&
      (decide (a.month < b.month) ||
        (decide (a.month = b.month) &&
          (decide (a.day < b.day) ||
            (decide (a.day = b.day) && decide (a.msOfDay ≤ b.msOfDay))))))

/-- JS `new Date('YYYY-01-01')`: midnight UTC on January 1. -/
def jan1 (year : Nat) : DateTime := ⟨year, 1, 1, 0⟩

/-- JS `new Date('YYYY-12-31')`: midnight UTC on December 31 — note this
is the very first instant of December 31, not its end. -/
def dec31 (year : Nat) : DateTime := ⟨year, 12, 31, 0⟩

/-- A tour document with the fields the two aggregation pipelines of
src/app.js read: `name`, `difficulty`, `ratingsAverage`,
`ratingsQuantity`, `price`, `startDates`. -/
structure Tour where
  name : String
  difficulty : String
  ratingsAverage : ℚ
  ratingsQuantity : ℚ
  price : ℚ
  startDates : List DateTime
deriving Repr, DecidableEq

/-- ASCII upper-casing of one character, as `$toUpper` performs on each
byte of an ASCII string. -/
def upperChar (c : Char) : Char :=
  if 'a' ≤ c ∧ c ≤ 'z' then Char.ofNat (c.toNat - 32) else c

/-- MongoDB `$toUpper` on an ASCII string. -/
def toUpperStr (s : String) : String := String.mk (s.data.map upperChar)

/-- `$min` over the (nonempty) list of a group's numeric values. -/
def minQ : List ℚ → ℚ
  | [] => 0
  | p :: ps => ps.foldl min p

/-- `$max` over the (nonempty) list of a group's numeric values. -/
def maxQ : List ℚ → ℚ
  | [] => 0
  | p :: ps => ps.foldl max p

/-- First-occurrence deduplication with an accumulator of already-seen
keys; the key order of a `$group` stage before any `$sort`. -/
def dedupAux {κ : Type} [DecidableEq κ] (seen : List κ) : List κ → List κ
  | [] => []
  | x :: xs =>
      if seen.contains x then dedupAux seen xs
      else x :: dedupAux (x :: seen) xs

/-- MongoDB `$group`: one group per distinct key, in first-appearance
order, holding every input document with that key. -/
def groupBy {α κ : Type} [DecidableEq κ] (key : α → κ) (l : List α) :
    List (κ × List α) :=
  (dedupAux [] (l.map key)).map (fun k => (k, l.filter (fun a => key a = k)))

/-- One output group of the `getTourStats` pipeline. -/
structure StatGroup where
  id : String
  numTours : Nat
  numRatings : ℚ
  avgRating : ℚ
  avgPrice : ℚ
  minPrice : ℚ
  maxPrice : ℚ
deriving Repr, DecidableEq

/-- The `$match: \x7b ratingsAverage: \x7b $gte: 4.5 \x7d \x7d` stage of
`getTourStats`. -/
def ratedTours (tours : List Tour) : List Tour :=
  tours.filter (fun t => decide (4.5 ≤ t.ratingsAverage))

/-- The accumulators of the `$group` stage of `getTourStats`, applied to
one group (`kg.1` the upper-cased difficulty key, `kg.2` the group's
documents): `numTours = $sum 1`, `numRatings = $sum '$ratingsQuantity'`,
`avgRating = $avg '$ratingsAverage'`, `avgPrice = $avg '$price'`,
`minPrice = $min '$price'`, `maxPrice = $max '$price'`. -/
def mkStatGroup (kg : String × List Tour) : StatGroup :=
  { id := kg.1
    numTours := kg.2.length
    numRatings := (kg.2.map Tour.ratingsQuantity).sum
    avgRating := (kg.2.map Tour.ratingsAverage).sum / kg.2.length
    avgPrice := (kg.2.map Tour.price).sum / kg.2.length
    minPrice := minQ (kg.2.map Tour.price)
    maxPrice := maxQ (kg.2.map Tour.price) }

/-- The `getTourStats` aggregation (src/app.js lines 184-214):
`$match` on `ratingsAverage ≥ 4.5`; `$group` by `$toUpper: '$difficulty'`
with the accumulators of `mkStatGroup`; `$sort` ascending by `avgPrice`. -/
def getTourStats (tours : List Tour) : List StatGroup :=
  sortLeBy (fun a b => decide (a.avgPrice ≤ b.avgPrice))
    ((groupBy (fun t => toUpperStr t.difficulty) (ratedTours tours)).map mkStatGroup)

/-- The documents of one difficulty tier among the rated tours: the
members of the `$group` bucket keyed `k`. -/
def tierMembers (tours : List Tour) (k : String) : List Tour :=
  (ratedTours tours).filter (fun t => toUpperStr t.difficulty = k)

/-- One output group of the `getMonthlyPlan` pipeline, after `$addFields`
copies `_id` into `month` and `$project` drops `_id`. -/
structure PlanGroup where
  month : Nat
  numTourStarts : Nat
  tours : List String
deriving Repr, DecidableEq

/-- The `$unwind: '$startDates'` stage: one row per tour per start date. -/
def unwoundStarts (tours : List Tour) : List (Tour × DateTime) :=
  tours.flatMap (fun t => t.startDates.map (fun d => (t, d)))

/-- The `$match` stage of `getMonthlyPlan`: `startDates` between
`new Date('year-01-01')` and `new Date('year-12-31')` inclusive (both
bounds are midnight UTC). -/
def inYearWindow (year : Nat) (r : Tour × DateTime) : Bool :=
  DateTime.le (jan1 year) r.2 && DateTime.le r.2 (dec31 year)

/-- The accumulators of the `$group` stage of `getMonthlyPlan` together
with the `$addFields`/`$project` rewrite of `_id` into `month`:
`numTourStarts = $sum 1` and `tours = $push '$name'`. -/
def mkPlanGroup (kg : Nat × List (Tour × DateTime)) : PlanGroup :=
  { month := kg.1
    numTourStarts := kg.2.length
    tours := kg.2.map (fun r => r.1.name) }

/-- The `getMonthlyPlan` aggregation (src/app.js lines 216-260):
`$unwind: '$startDates'`; `$match` on the year window; `$group` by
`$month: '$startDates'`; `$addFields month`; `$project` away `_id`;
`$sort` by `numTourStarts` descending; `$limit: 12`. -/
def getMonthlyPlan (year : Nat) (tours : List Tour) : List PlanGroup :=
  (sortLeBy (fun a b => decide (b.numTourStarts ≤ a.numTourStarts))
    ((groupBy (fun r => r.2.month)
      ((unwoundStarts tours).filter (inYearWindow year))).map mkPlanGroup)).take 12

/-- The rows of month `m` among the unwound, year-filtered start dates:
the members of the `$group` bucket keyed `m`. -/
def monthRows (year : Nat) (tours : List Tour) (m : Nat) : List (Tour × DateTime) :=
  ((unwoundStarts tours).filter (inYearWindow year)).filter (fun r => r.2.month = m)

/-- A concrete tour used to exercise the monthly plan: two June 2021 start
dates and one May 2021 start date. -/
def seaExplorer : Tour :=
  { name := "Sea Explorer"
    difficulty := "medium"
    ratingsAverage := 4.7
    ratingsQuantity := 9
    price := 497
    startDates := [⟨2021, 6, 19, 0⟩, ⟨2021, 6, 25, 0⟩, ⟨2021, 5, 1, 0⟩] }

/-- Modelled from the spec: the global error handler
(controllers/errorController.js, not under src/) renders a failure as the
uniform envelope.  Per spec section 3, every client-caused failure (4xx)
uses status `fail` and every unexpected failure (5xx) uses `error`, with
the operational message exposed.  Result: (HTTP status, envelope status,
message). -/
def renderError (e : AppError) : Nat × String × String :=
  (e.statusCode,
    if 400 ≤ e.statusCode ∧ e.statusCode < 500 then "fail" else "error",
    e.message)

/-- The catch-all route `app.all('*')` (src/app.js lines 81-87): forwards
`new AppError("Can't find <originalUrl> on this server!", 404)` to the
error handler. -/
def unmatchedRouteError (url : String) : AppError :=
  AppError.mk ("Can't find " ++ url ++ " on this server!") 404

/-- The rate limiter window from src/app.js line 30:
`windowMs: 60 * 60 * 1000`. -/
def windowMs : Nat := 60 * 60 * 1000

/-- The rate limiter cap from src/app.js line 29: `max: 100`. -/
def maxRequests : Nat := 100

/-- The rate limiter message from src/app.js line 31. -/
def limiterMessage : String :=
  "Too many requests from this IP, please try again in an hour!"

/-- Outcome of the rate limiter for one request: passed through, or
rejected with the configured message. -/
inductive LimitOutcome where
  | served
  | rejected (msg : String)
deriving Repr, DecidableEq

/-- Modelled from the spec: express-rate-limit (the library is not under
src/; the spec asks for a per-client-IP cap of 100 requests per rolling
hour).  The state is the log of past hits (ip, time); a hit counts against
ip at time t when it belongs to ip and happened within the window ending
at t. -/
def hitsWithin (st : List (String × Nat)) (ip : String) (t : Nat) : Nat :=
  (st.filter (fun h =>
    h.1 == ip && decide (h.2 ≤ t) && decide (t < h.2 + windowMs))).length

/-- One limiter step: log the hit; serve the request when fewer than
`maxRequests` earlier hits from the same IP fall in the rolling window,
otherwise reject it with `limiterMessage`. -/
def limiterStep (st : List (String × Nat)) (ip : String) (t : Nat) :
    List (String × Nat) × LimitOutcome :=
  ((ip, t) :: st,
    if hitsWithin st ip t < maxRequests then LimitOutcome.served
    else LimitOutcome.rejected limiterMessage)

/-- Processing a sequence of (ip, time) requests through the limiter,
recording each request's outcome. -/
def processHits (st : List (String × Nat)) :
    List (String × Nat) → List ((String × Nat) × LimitOutcome)
  | [] => []
  | r :: rs =>
      let s := limiterStep st r.1 r.2
      (r, s.2) :: processHits s.1 rs

/-- An inbound HTTP request as the middleware stack observes it. -/
structure Request where
  path : String
  ip : String
  time : Nat
  bodySize : Nat
deriving Repr, DecidableEq

/-- The JSON body cap from src/app.js line 36: `express.json(\x7b limit:
'10kb' \x7d)`, i.e. 10 * 1024 bytes. -/
def bodyLimit : Nat := 10240

/-- Boolean list-prefix test. -/
def listPrefixOf : List Char → List Char → Bool
  | [], _ => true
  | _ :: _, [] => false
  | x :: xs, y :: ys => x == y && listPrefixOf xs ys

/-- Whether the string `s` starts with `pre`. -/
def strStartsWith (s pre : String) : Bool := listPrefixOf pre.data s.data

/-- Whether a request path falls under the '/api' mount of the rate
limiter (src/app.js line 33). -/
def isApiPath (p : String) : Bool := strStartsWith p "/api"

/-- Whether an express mount at `mount` matches path `p`: the path equals
the mount or continues it at a `/` boundary. -/
def mountMatches (p mount : String) : Bool :=
  (p == mount) || strStartsWith p (mount ++ "/")

/-- Whether one of the three routers mounted in src/app.js lines 77-79
matches the path; anything else falls through to `app.all('*')`. -/
def routedBy (p : String) : Bool :=
  mountMatches p "/api/v1/tours" || mountMatches p "/api/v1/users"
    || mountMatches p "/api/v1/reviews"

/-- Result of running one request through the middleware stack: rejected
by the rate limiter, rejected by the body parser, dispatched to a mounted
router, or answered by the catch-all 404. -/
inductive PipelineResult where
  | limited (msg : String)
  | tooLarge
  | handled (path : String)
  | notFound (response : Nat × String × String)
deriving Repr, DecidableEq

/-- The middleware stack of src/app.js in mount order: the rate limiter on
'/api' paths (line 33), then the JSON body parser with its 10kb cap (line
36; modelled from the spec, the express.json implementation not being
under src/ — a request over the cap is rejected before anything later
runs), then the three routers (lines 77-79) and the `app.all('*')`
catch-all (lines 81-87) rendered through the error handler. -/
def appPipeline (st : List (String × Nat)) (req : Request) :
    List (String × Nat) × PipelineResult :=
  if isApiPath req.path then
    let s := limiterStep st req.ip req.time
    match s.2 with
    | LimitOutcome.rejected msg => (s.1, PipelineResult.limited msg)
    | LimitOutcome.served =>
        if bodyLimit < req.bodySize then (s.1, PipelineResult.tooLarge)
        else if routedBy req.path then (s.1, PipelineResult.handled req.path)
        else (s.1, PipelineResult.notFound (renderError (unmatchedRouteError req.path)))
  else
    if bodyLimit < req.bodySize then (st, PipelineResult.tooLarge)
    else if routedBy req.path then (st, PipelineResult.handled req.path)
    else (st, PipelineResult.notFound (renderError (unmatchedRouteError req.path)))

/-- A concrete request log: two hits from one IP with one other client's
hit interleaved, all within one hour. -/
def sampleHits : List (String × Nat) := [("3.3.3.3", 0), ("7.7.7.7", 1), ("3.3.3.3", 2)]

/-! Supporting lemmas about the list operations used by the pipelines. -/

theorem mem_dedupAux {κ : Type} [DecidableEq κ] (x : κ) (l seen : List κ) :
    x ∈ dedupAux seen l ↔ x ∈ l ∧ x ∉ seen := by
  induction l generalizing seen with
  | nil => simp [dedupAux]
  | cons y ys ih =>
      by_cases hy : seen.contains y = true
      · rw [dedupAux, if_pos hy]
        rw [ih]
        constructor
        · rintro ⟨h1, h2⟩
          exact ⟨List.mem_cons_of_mem y h1, h2⟩
        · rintro ⟨h1, h2⟩
          rcases List.mem_cons.mp h1 with rfl | h1
          · exact absurd (List.mem_of_elem_eq_true hy) h2
          · exact ⟨h1, h2⟩
      · rw [dedupAux, if_neg hy]
        have hyseen : y ∉ seen := fun hmem =>
          hy (List.elem_eq_true_of_mem hmem)
        constructor
        · intro hmem
          rcases List.mem_cons.mp hmem with rfl | hmem
          · exact ⟨List.mem_cons_self x ys, hyseen⟩
          · rcases (ih (y :: seen)).mp hmem with ⟨h1, h2⟩
            refine ⟨List.mem_cons_of_mem y h1, ?_⟩
            intro hx
            exact h2 (List.mem_cons_of_mem y hx)
        · rintro ⟨h1, h2⟩
          rcases List.mem_cons.mp h1 with rfl | h1
          · exact List.mem_cons_self x _
          · by_cases hxy : x = y
            · subst hxy
              exact List.mem_cons_self x _
            · refine List.mem_cons_of_mem y ((ih (y :: seen)).mpr ⟨h1, ?_⟩)
              intro hx
              rcases List.mem_cons.mp hx with h | h
              · exact hxy h
              · exact h2 h

theorem nodup_dedupAux {κ : Type} [DecidableEq κ] (l seen : List κ) :
    (dedupAux seen l).Nodup := by
  induction l generalizing seen with
  | nil => exact List.nodup_nil
  | cons y ys ih =>
      by_cases hy : seen.contains y = true
      · rw [dedupAux, if_pos hy]
        exact ih seen
      · rw [dedupAux, if_neg hy]
        refine List.nodup_cons.mpr ⟨?_, ih (y :: seen)⟩
        intro hmem
        exact ((mem_dedupAux y ys (y :: seen)).mp hmem).2 (List.mem_cons_self y seen)

theorem mem_groupBy {α κ : Type} [DecidableEq κ] (key : α → κ) (l : List α)
    (k : κ) (g : List α) :
    (k, g) ∈ groupBy key l ↔
      ((∃ a ∈ l, key a = k) ∧ g = l.filter (fun a => key a = k)) := by
  rw [groupBy]
  constructor
  · intro hmem
    rcases List.mem_map.mp hmem with ⟨k0, hk0, heq⟩
    obtain ⟨rfl, rfl⟩ := Prod.mk.injEq .. ▸ heq
    rcases (mem_dedupAux k0 (l.map key) []).mp hk0 with ⟨h1, _⟩
    rcases List.mem_map.mp h1 with ⟨a, ha, rfl⟩
    exact ⟨⟨a, ha, rfl⟩, rfl⟩
  · rintro ⟨⟨a, ha, rfl⟩, rfl⟩
    refine List.mem_map.mpr ⟨key a, ?_, rfl⟩
    exact (mem_dedupAux (key a) (l.map key) []).mpr
      ⟨List.mem_map.mpr ⟨a, ha, rfl⟩, List.not_mem_nil _⟩

theorem nodup_groupBy_keys {α κ : Type} [DecidableEq κ] (key : α → κ)
    (l : List α) : ((groupBy key l).map Prod.fst).Nodup := by
  rw [groupBy, List.map_map]
  have : (Prod.fst ∘ fun k => (k, l.filter (fun a => key a = k)))
      = (id : κ → κ) := rfl
  rw [this, List.map_id]
  exact nodup_dedupAux _ _

theorem mem_insertLeBy {α : Type} (le : α → α → Bool) (a x : α) (l : List α) :
    x ∈ insertLeBy le a l ↔ x = a ∨ x ∈ l := by
  induction l with
  | nil => simp [insertLeBy]
  | cons y ys ih =>
      by_cases h : le a y = true
      · simp [insertLeBy, h]
      · simp only [insertLeBy, h, if_neg]
        simp [List.mem_cons, ih]
        tauto

theorem mem_sortLeBy {α : Type} (le : α → α → Bool) (x : α) (l : List α) :
    x ∈ sortLeBy le l ↔ x ∈ l := by
  induction l with
  | nil => simp [sortLeBy]
  | cons y ys ih => simp [sortLeBy, mem_insertLeBy, ih]

theorem nodup_length_le {κ : Type} (l ks : List κ) (hnd : l.Nodup)
    (hsub : l ⊆ ks) : l.length ≤ ks.length :=
  (hnd.subperm hsub).length_le

theorem perm_insertLeBy {α : Type} (le : α → α → Bool) (x : α) (l : List α) :
    List.Perm (insertLeBy le x l) (x :: l) := by
  induction l with
  | nil => exact List.Perm.refl _
  | cons y ys ih =>
      by_cases h : le x y = true
      · rw [insertLeBy, if_pos h]
      · rw [insertLeBy, if_neg h]
        exact List.Perm.trans (List.Perm.cons y ih) (List.Perm.swap x y ys)

theorem perm_sortLeBy {α : Type} (le : α → α → Bool) (l : List α) :
    List.Perm (sortLeBy le l) l := by
  induction l with
  | nil => exact List.Perm.refl _
  | cons y ys ih =>
      exact List.Perm.trans (perm_insertLeBy le y (sortLeBy le ys))
        (List.Perm.cons y ih)

theorem pairwise_insertLeBy {α : Type} (le : α → α → Bool)
    (htot : ∀ a b, le a b = true ∨ le b a = true)
    (htrans : ∀ a b c, le a b = true → le b c = true → le a c = true)
    (x : α) (l : List α) (hl : l.Pairwise (fun a b => le a b = true)) :
    (insertLeBy le x l).Pairwise (fun a b => le a b = true) := by
  induction l with
  | nil => simp [insertLeBy]
  | cons y ys ih =>
      rcases List.pairwise_cons.mp hl with ⟨hy, hys⟩
      by_cases h : le x y = true
      · rw [insertLeBy, if_pos h]
        refine List.pairwise_cons.mpr ⟨?_, hl⟩
        intro z hz
        rcases List.mem_cons.mp hz with rfl | hz
        · exact h
        · exact htrans x y z h (hy z hz)
      · rw [insertLeBy, if_neg h]
        refine List.pairwise_cons.mpr ⟨?_, ih hys⟩
        intro z hz
        rcases (mem_insertLeBy le x z ys).mp hz with rfl | hz
        · rcases htot z y with h2 | h2
          · exact absurd h2 h
          · exact h2
        · exact hy z hz

theorem pairwise_sortLeBy {α : Type} (le : α → α → Bool)
    (htot : ∀ a b, le a b = true ∨ le b a = true)
    (htrans : ∀ a b c, le a b = true → le b c = true → le a c = true)
    (l : List α) :
    (sortLeBy le l).Pairwise (fun a b => le a b = true) := by
  induction l with
  | nil => exact List.Pairwise.nil
  | cons y ys ih => exact pairwise_insertLeBy le htot htrans y _ ih

theorem minQ_spec (ps : List ℚ) :
    ∀ p : ℚ, (∀ x ∈ p :: ps, minQ (p :: ps) ≤ x) ∧ minQ (p :: ps) ∈ p :: ps := by
  induction ps with
  | nil => intro p; simp [minQ]
  | cons q qs ih =>
      intro p
      have hstep : minQ (p :: q :: qs) = minQ (min p q :: qs) := rfl
      rcases ih (min p q) with ⟨hle, hmem⟩
      constructor
      · intro x hx
        rcases List.mem_cons.mp hx with hx1 | hx
        · rw [hx1]
          exact hstep ▸ le_trans (hle _ (List.mem_cons_self _ _)) (min_le_left p q)
        rcases List.mem_cons.mp hx with hx1 | hx
        · rw [hx1]
          exact hstep ▸ le_trans (hle _ (List.mem_cons_self _ _)) (min_le_right p q)
        · exact hstep ▸ hle x (List.mem_cons_of_mem _ hx)
      · rw [hstep]
        rcases List.mem_cons.mp hmem with hm | hm
        · rcases min_choice p q with hc | hc
          · rw [hm, hc]
            exact List.mem_cons_self p _
          · rw [hm, hc]
            exact List.mem_cons_of_mem p (List.mem_cons_self q qs)
        · exact List.mem_cons_of_mem p (List.mem_cons_of_mem q hm)

theorem maxQ_spec (ps : List ℚ) :
    ∀ p : ℚ, (∀ x ∈ p :: ps, x ≤ maxQ (p :: ps)) ∧ maxQ (p :: ps) ∈ p :: ps := by
  induction ps with
  | nil => intro p; simp [maxQ]
  | cons q qs ih =>
      intro p
      have hstep : maxQ (p :: q :: qs) = maxQ (max p q :: qs) := rfl
      rcases ih (max p q) with ⟨hle, hmem⟩
      constructor
      · intro x hx
        rcases List.mem_cons.mp hx with hx1 | hx
        · rw [hx1]
          exact hstep ▸ le_trans (le_max_left p q) (hle _ (List.mem_cons_self _ _))
        rcases List.mem_cons.mp hx with hx1 | hx
        · rw [hx1]
          exact hstep ▸ le_trans (le_max_right p q) (hle _ (List.mem_cons_self _ _))
        · exact hstep ▸ hle x (List.mem_cons_of_mem _ hx)
      · rw [hstep]
        rcases List.mem_cons.mp hmem with hm | hm
        · rcases max_choice p q with hc | hc
          · rw [hm, hc]
            exact List.mem_cons_self p _
          · rw [hm, hc]
            exact List.mem_cons_of_mem p (List.mem_cons_self q qs)
        · exact List.mem_cons_of_mem p (List.mem_cons_of_mem q hm)

theorem length_insertLeBy {α : Type} (le : α → α → Bool) (a : α) (l : List α) :
    (insertLeBy le a l).length = l.length + 1 := by
  induction l with
  | nil => simp [insertLeBy]
  | cons y ys ih =>
      by_cases h : le a y = true <;> simp [insertLeBy, h, ih]

theorem length_sortLeBy {α : Type} (le : α → α → Bool) (l : List α) :
    (sortLeBy le l).length = l.length := by
  induction l with
  | nil => rfl
  | cons y ys ih => simp [sortLeBy, length_insertLeBy, ih]

theorem sum_filter_lengths {α κ : Type} [DecidableEq κ] (key : α → κ) :
    ∀ (ks : List κ) (l : List α), ks.Nodup → (∀ a ∈ l, key a ∈ ks) →
      (ks.map (fun k => (l.filter (fun a => key a = k)).length)).sum = l.length := by
  intro ks
  induction ks with
  | nil =>
      intro l _ hcov
      cases l with
      | nil => rfl
      | cons a t => exact absurd (hcov a (List.mem_cons_self a t)) (List.not_mem_nil _)
  | cons k ks ih =>
      intro l hnd hcov
      rcases List.nodup_cons.mp hnd with ⟨hk, hnd'⟩
      have hrest : ∀ k' ∈ ks,
          (l.filter (fun a => key a = k')).length
            = ((l.filter (fun a => !decide (key a = k))).filter
                (fun a => key a = k')).length := by
        intro k' hk'
        have hne : k' ≠ k := fun h => hk (h ▸ hk')
        rw [List.filter_filter]
        refine congrArg List.length (List.filter_congr ?_)
        intro a _
        by_cases hak : key a = k'
        · have h2 : ¬ key a = k := fun h => hne (hak ▸ h ▸ rfl)
          simp [hak, h2, hne]
        · simp [hak]
      have hcov' : ∀ a ∈ l.filter (fun a => !decide (key a = k)), key a ∈ ks := by
        intro a ha
        rcases List.mem_filter.mp ha with ⟨hal, hprop⟩
        have : ¬ key a = k := by
          intro h
          simp [h] at hprop
        rcases List.mem_cons.mp (hcov a hal) with h | h
        · exact absurd h this
        · exact h
      rw [List.map_cons, List.sum_cons]
      have hsum : (ks.map (fun k' => (l.filter (fun a => key a = k')).length)).sum
          = (ks.map (fun k' => ((l.filter (fun a => !decide (key a = k))).filter
              (fun a => key a = k')).length)).sum := by
        refine congrArg List.sum (List.map_congr_left ?_)
        intro k' hk'
        exact hrest k' hk'
      rw [hsum, ih _ hnd' hcov']
      exact (List.length_eq_length_filter_add (fun a => decide (key a = k))).symm

theorem sum_groupBy_lengths {α κ : Type} [DecidableEq κ] (key : α → κ)
    (l : List α) :
    ((groupBy key l).map (fun kg => kg.2.length)).sum = l.length := by
  rw [groupBy, List.map_map]
  have heq : ((fun kg : κ × List α => kg.2.length)
        ∘ fun k => (k, l.filter (fun a => key a = k)))
      = fun k => (l.filter (fun a => key a = k)).length := rfl
  rw [heq]
  refine sum_filter_lengths key _ l (nodup_dedupAux _ _) ?_
  intro a ha
  exact (mem_dedupAux (key a) (l.map key) []).mpr
    ⟨List.mem_map.mpr ⟨a, ha, rfl⟩, List.not_mem_nil _⟩

theorem mkStatGroup_minmax (k : String) (g2 : List Tour) (a : Tour)
    (ha : a ∈ g2) :
    (∀ t ∈ g2, (mkStatGroup (k, g2)).minPrice ≤ t.price
        ∧ t.price ≤ (mkStatGroup (k, g2)).maxPrice)
    ∧ (∃ t ∈ g2, (mkStatGroup (k, g2)).minPrice = t.price)
    ∧ (∃ t ∈ g2, (mkStatGroup (k, g2)).maxPrice = t.price) := by
  cases g2 with
  | nil => exact absurd ha (List.not_mem_nil a)
  | cons m ms =>
      have hmin := minQ_spec (ms.map Tour.price) m.price
      have hmax := maxQ_spec (ms.map Tour.price) m.price
      have hminP : (mkStatGroup (k, m :: ms)).minPrice
          = minQ (m.price :: ms.map Tour.price) := rfl
      have hmaxP : (mkStatGroup (k, m :: ms)).maxPrice
          = maxQ (m.price :: ms.map Tour.price) := rfl
      refine ⟨?_, ?_, ?_⟩
      · intro t ht
        have htp : t.price ∈ m.price :: ms.map Tour.price := by
          rw [show (m.price :: ms.map Tour.price) = (m :: ms).map Tour.price from rfl]
          exact List.mem_map.mpr ⟨t, ht, rfl⟩
        exact ⟨hminP ▸ hmin.1 t.price htp, hmaxP ▸ hmax.1 t.price htp⟩
      · have hm := hmin.2
        rw [show (m.price :: ms.map Tour.price) = (m :: ms).map Tour.price from rfl]
          at hm
        rcases List.mem_map.mp hm with ⟨t, ht, heq⟩
        exact ⟨t, ht, hminP ▸ heq.symm⟩
      · have hm := hmax.2
        rw [show (m.price :: ms.map Tour.price) = (m :: ms).map Tour.price from rfl]
          at hm
        rcases List.mem_map.mp hm with ⟨t, ht, heq⟩
        exact ⟨t, ht, hmaxP ▸ heq.symm⟩

theorem hitsWithin_filter_ip (st : List (String × Nat)) (a : String) (t : Nat) :
    hitsWithin st a t = hitsWithin (st.filter (fun h => h.1 == a)) a t := by
  rw [hitsWithin, hitsWithin, List.filter_filter]
  refine congrArg List.length (List.filter_congr ?_).symm
  intro h _
  cases h0 : (h.1 == a) <;> simp [h0]

theorem processHits_filter_ip (a : String) :
    ∀ (rs st1 st2 : List (String × Nat)),
      st1.filter (fun h => h.1 == a) = st2.filter (fun h => h.1 == a) →
      ((processHits st1 rs).filter (fun rb => rb.1.1 == a)).map (fun rb => rb.2)
        = (processHits st2 (rs.filter (fun r => r.1 == a))).map (fun rb => rb.2) := by
  intro rs
  induction rs with
  | nil => intro st1 st2 _; rfl
  | cons r rs ih =>
      intro st1 st2 hst
      cases hr : (r.1 == a) with
      | true =>
          have hra : r.1 = a := beq_iff_eq.mp hr
          have hout : hitsWithin st1 r.1 r.2 = hitsWithin st2 r.1 r.2 := by
            rw [hra, hitsWithin_filter_ip st1 a r.2, hitsWithin_filter_ip st2 a r.2, hst]
          have hst' : ((r.1, r.2) :: st1).filter (fun h => h.1 == a)
              = ((r.1, r.2) :: st2).filter (fun h => h.1 == a) := by
            simp only [List.filter_cons, hr, hst]
          rw [processHits, List.filter_cons]
          simp only [hr, if_pos]
          rw [List.filter_cons]
          simp only [hr, if_pos]
          rw [processHits]
          simp only [List.map_cons]
          rw [limiterStep, limiterStep, hout]
          exact congrArg _ (ih _ _ hst')
      | false =>
          have hst' : ((r.1, r.2) :: st1).filter (fun h => h.1 == a)
              = st2.filter (fun h => h.1 == a) := by
            simp only [List.filter_cons, hr, hst]
            rw [← hst]
            simp [List.filter_cons, hr]
          rw [processHits, List.filter_cons]
          simp only [hr]
          rw [List.filter_cons]
          simp only [hr]
          exact ih _ _ hst'

theorem processHits_window_pattern (a : String) (t0 : Nat) :
    ∀ (rs st : List (String × Nat)),
      (∀ r ∈ rs, r.1 = a) →
      (∀ r ∈ rs, t0 ≤ r.2 ∧ r.2 < t0 + windowMs) →
      rs.Pairwise (fun r s => r.2 ≤ s.2) →
      (∀ h ∈ st, h.1 = a ∧ t0 ≤ h.2 ∧ ∀ r ∈ rs, h.2 ≤ r.2) →
      (processHits st rs).map (fun rb => rb.2)
        = (List.range rs.length).map
            (fun i => if st.length + i < maxRequests then LimitOutcome.served
              else LimitOutcome.rejected limiterMessage) := by
  intro rs
  induction rs with
  | nil => intro st _ _ _ _; rfl
  | cons r rs ih =>
      intro st hip hwin hmono hst
      have hall : ∀ h ∈ st,
          (h.1 == a && decide (h.2 ≤ r.2) && decide (r.2 < h.2 + windowMs)) = true := by
        intro h hh
        rcases hst h hh with ⟨h1, h2, h3⟩
        have hb1 : (h.1 == a) = true := beq_iff_eq.mpr h1
        have hb2 : decide (h.2 ≤ r.2) = true :=
          decide_eq_true (h3 r (List.mem_cons_self r rs))
        have hb3 : decide (r.2 < h.2 + windowMs) = true := by
          refine decide_eq_true ?_
          have hr2 := (hwin r (List.mem_cons_self r rs)).2
          have : t0 + windowMs ≤ h.2 + windowMs := Nat.add_le_add_right h2 _
          exact lt_of_lt_of_le hr2 this
        rw [hb1, hb2, hb3]
        rfl
      have hcount : hitsWithin st r.1 r.2 = st.length := by
        rw [hip r (List.mem_cons_self r rs), hitsWithin,
          List.filter_eq_self.mpr hall]
      rw [processHits, List.map_cons, limiterStep, hcount]
      have hlenrange : List.range (r :: rs).length
          = 0 :: (List.range rs.length).map Nat.succ := by
        rw [List.length_cons, List.range_succ_eq_map]
      rw [hlenrange, List.map_cons, List.map_map]
      have hmono' := (List.pairwise_cons.mp hmono).2
      have hmonohead := (List.pairwise_cons.mp hmono).1
      have hst' : ∀ h ∈ (r.1, r.2) :: st,
          h.1 = a ∧ t0 ≤ h.2 ∧ ∀ r' ∈ rs, h.2 ≤ r'.2 := by
        intro h hh
        rcases List.mem_cons.mp hh with rfl | hh
        · exact ⟨hip r (List.mem_cons_self r rs),
            (hwin r (List.mem_cons_self r rs)).1, fun r' hr' => hmonohead r' hr'⟩
        · rcases hst h hh with ⟨h1, h2, h3⟩
          exact ⟨h1, h2, fun r' hr' => h3 r' (List.mem_cons_of_mem r hr')⟩
      have hrec := ih ((r.1, r.2) :: st)
        (fun r' hr' => hip r' (List.mem_cons_of_mem r hr'))
        (fun r' hr' => hwin r' (List.mem_cons_of_mem r hr'))
        hmono' hst'
      rw [hrec]
      have hcongr : ∀ i ∈ List.range rs.length,
          (if ((r.1, r.2) :: st).length + i < maxRequests then LimitOutcome.served
            else LimitOutcome.rejected limiterMessage)
          = (fun i => if st.length + i < maxRequests then LimitOutcome.served
              else LimitOutcome.rejected limiterMessage) (Nat.succ i) := by
        intro i _
        have : ((r.1, r.2) :: st).length + i = st.length + Nat.succ i := by
          rw [List.length_cons]
          omega
        rw [this]
      rw [List.map_congr_left hcongr]
      exact rfl

theorem count_served_range :
    ∀ n m : Nat, ((List.range n).map
        (fun i => if i < m then LimitOutcome.served
          else LimitOutcome.rejected limiterMessage)).count LimitOutcome.served
      = min n m := by
  intro n
  induction n with
  | zero => intro m; simp
  | succ n ih =>
      intro m
      rw [List.range_succ, List.map_append, List.count_append, ih]
      by_cases hnm : n < m
      · simp only [List.map_cons, List.map_nil, hnm, if_pos]
        rw [List.count_singleton]
        rw [show (LimitOutcome.served == LimitOutcome.served) = true from by decide]
        simp only [if_pos]
        omega
      · simp only [List.map_cons, List.map_nil, hnm, if_neg, not_false_iff]
        rw [List.count_singleton]
        rw [show (LimitOutcome.rejected limiterMessage == LimitOutcome.served) = false
          from by decide]
        simp only [Bool.false_eq_true, if_false]
        omega

theorem lookup_filter_of_keeps (k : String) (p : String × BVal → Bool)
    (hp : ∀ v, p (k, v) = true) (l : GeoDoc) :
    List.lookup k (l.filter p) = List.lookup k l := by
  induction l with
  | nil => rfl
  | cons a t ih =>
      obtain ⟨a1, b⟩ := a
      by_cases hak : a1 = k
      · subst hak
        simp [List.filter, hp b, List.lookup]
      · have hbeq : (k == a1) = false := by
          simp [beq_eq_false_iff_ne]
          exact fun h => hak h.symm
        by_cases hpa : p (a1, b) = true
        · simp [List.filter, hpa, List.lookup, hbeq, ih]
        · simp only [Bool.not_eq_true] at hpa
          simp [List.filter, hpa, List.lookup, hbeq, ih]

theorem lookup_overwriteField (k : String) (v : BVal) (d : GeoDoc)
    (hc : (docKeys d).contains k = true) :
    List.lookup k (overwriteField k v d) = some v := by
  induction d with
  | nil => simp [docKeys] at hc
  | cons a t ih =>
      obtain ⟨a1, b⟩ := a
      by_cases hak : a1 = k
      · rw [overwriteField, if_pos hak]
        simp [List.lookup]
      · have hbeq : (k == a1) = false :=
          beq_eq_false_iff_ne.mpr (fun h => hak h.symm)
        have hc' : (docKeys t).contains k = true := by
          have h0 := hc
          rw [docKeys, List.map, List.contains_cons] at h0
          rcases Bool.or_eq_true_iff.mp h0 with h | h
          · exact absurd (beq_iff_eq.mp h).symm hak
          · exact h
        rw [overwriteField, if_neg hak]
        simp only [List.lookup, hbeq]
        exact ih hc'

theorem lookup_none_of_not_contains (k : String) (d : GeoDoc)
    (hc : (docKeys d).contains k = false) :
    List.lookup k d = none := by
  induction d with
  | nil => rfl
  | cons a t ih =>
      obtain ⟨a1, b⟩ := a
      rw [docKeys, List.map, List.contains_cons] at hc
      rcases Bool.or_eq_false_iff.mp hc with ⟨h1, h2⟩
      simp only [List.lookup, h1]
      exact ih h2

theorem lookup_append_of_none (k : String) (d l2 : GeoDoc)
    (h : List.lookup k d = none) :
    List.lookup k (d ++ l2) = List.lookup k l2 := by
  induction d with
  | nil => rfl
  | cons a t ih =>
      obtain ⟨a1, b⟩ := a
      by_cases hak : (k == a1) = true
      · simp only [List.lookup, hak] at h
        exact Option.noConfusion h
      · have hak' : (k == a1) = false := by
          cases hbe : (k == a1) with
          | true => exact absurd hbe hak
          | false => rfl
        simp only [List.lookup, hak'] at h
        simp only [List.cons_append, List.lookup, hak']
        exact ih h

/-- Setting a field then looking it up yields the value just set, whether
the field already existed or not. -/
theorem lookup_setField (d : GeoDoc) (k : String) (v : BVal) :
    List.lookup k (setField d k v) = some v := by
  by_cases hc : (docKeys d).contains k = true
  · rw [setField, if_pos hc]
    exact lookup_overwriteField k v d hc
  · simp only [Bool.not_eq_true] at hc
    rw [setField, if_neg (by rw [hc]; simp)]
    rw [lookup_append_of_none k d _ (lookup_none_of_not_contains k d hc)]
    simp [List.lookup]

end TourBooking

namespace TourBooking

/-- C2: for every geo-radius request the radius handed to the start-location
filter is `distance / 3963.2` when the unit is `mi` and `distance / 6378.1`
otherwise (in particular for `km`), and that same radius is what the query
receives; at `distance = 200` these are `200 / 3963.2` and `200 / 6378.1`. -/
theorem getToursWithin_radius {α : Type}
    (find : Option String → Option String → ℚ → List α)
    (d : ℚ) (latlng : String) :
    (getToursWithin find d latlng "mi").radiusUsed = d / 3963.2
    ∧ (getToursWithin find d latlng "km").radiusUsed = d / 6378.1
    ∧ (getToursWithin find d latlng "mi").response
        = some (200, "success", find (lngOf latlng) (latOf latlng) (d / 3963.2))
    ∧ (getToursWithin find d latlng "km").response
        = some (200, "success", find (lngOf latlng) (latOf latlng) (d / 6378.1))
    ∧ (getToursWithin find 200 latlng "mi").radiusUsed = 200 / 3963.2
    ∧ (getToursWithin find 200 latlng "km").radiusUsed = 200 / 6378.1 := by
  refine ⟨rfl, ?_, rfl, ?_, rfl, ?_⟩ <;>
    simp [getToursWithin, radiusOf]

/-- C1 (code bug): on a `latlng` with no comma (here `"40"`), the handler
does emit the operational 400 error, but does NOT halt: the geo query
still runs and the 200 success response is still built.  Evaluated at the
failing input with a concrete one-element collection. -/
theorem getToursWithin_bad_latlng_does_not_halt :
    (getToursWithin (fun _ _ _ => [0]) 200 "40" "mi").emitted
      = [AppError.mk "Please provide latitude and longitude in the format lat,lng." 400]
    ∧ (getToursWithin (fun _ _ _ => [0]) 200 "40" "mi").queryRan = true
    ∧ (getToursWithin (fun _ _ _ => [0]) 200 "40" "mi").response
      = some (200, "success", [0]) := by
  refine ⟨?_, rfl, rfl⟩
  decide

/-- C6 (amended): with a valid center point the distances handler emits no
error; the distance multiplier is `0.000621371` for unit `mi` and `0.001`
otherwise; each document of the collection yields exactly one response row;
each row carries `distMeters · · d * multiplier` in its `distance` field;
and each row's fields are drawn from `distance`, `name` and the `_id` field
that a MongoDB inclusion projection retains by default. -/
theorem getDistances_converts_and_projects
    (distMeters : Option String → Option String → GeoDoc → ℚ)
    (docs : List GeoDoc) (latlng unit : String)
    (hlat : falsyStr (latOf latlng) = false)
    (hlng : falsyStr (lngOf latlng) = false) :
    (getDistances distMeters docs latlng unit).emitted = []
    ∧ (getDistances distMeters docs latlng "mi").multiplierUsed = 0.000621371
    ∧ (getDistances distMeters docs latlng "km").multiplierUsed = 0.001
    ∧ ∃ rows,
        (getDistances distMeters docs latlng unit).response = some (200, "success", rows)
        ∧ rows.length = docs.length
        ∧ (∀ r ∈ rows,
            (∃ d ∈ docs, List.lookup "distance" r
                = some (BVal.num (distMeters (lngOf latlng) (latOf latlng) d * multiplierOf unit)))
            ∧ ∀ k ∈ docKeys r, k = "_id" ∨ k = "distance" ∨ k = "name")
        ∧ ∀ d ∈ docs, ∃ r ∈ rows, List.lookup "distance" r
            = some (BVal.num (distMeters (lngOf latlng) (latOf latlng) d * multiplierOf unit)) := by
  refine ⟨?_, rfl, rfl, _, rfl, ?_, ?_, ?_⟩
  · simp [getDistances, hlat, hlng]
  · simp [length_sortLeBy]
  · intro r hr
    rw [List.mem_map] at hr
    obtain ⟨p, hp, rfl⟩ := hr
    rw [mem_sortLeBy, List.mem_map] at hp
    obtain ⟨d, hd, rfl⟩ := hp
    constructor
    · refine ⟨d, hd, ?_⟩
      rw [projectInclude,
        lookup_filter_of_keeps _ _ (fun v => rfl),
        lookup_setField]
    · intro k hk
      rw [docKeys, List.mem_map] at hk
      obtain ⟨kv, hkv, rfl⟩ := hk
      have hpk := List.of_mem_filter hkv
      rcases Bool.or_eq_true_iff.mp hpk with h | h
      · exact Or.inl (beq_iff_eq.mp h)
      · rw [List.contains_cons] at h
        rcases Bool.or_eq_true_iff.mp h with h2 | h2
        · exact Or.inr (Or.inl (beq_iff_eq.mp h2))
        · rw [List.contains_cons] at h2
          rcases Bool.or_eq_true_iff.mp h2 with h3 | h3
          · exact Or.inr (Or.inr (beq_iff_eq.mp h3))
          · simp at h3
  · intro d hd
    refine ⟨projectInclude ["distance", "name"]
      (setField d "distance"
        (BVal.num (distMeters (lngOf latlng) (latOf latlng) d * multiplierOf unit))), ?_, ?_⟩
    · exact List.mem_map.mpr
        ⟨(distMeters (lngOf latlng) (latOf latlng) d, d),
          (mem_sortLeBy _ _ _).mpr (List.mem_map.mpr ⟨d, hd, rfl⟩), rfl⟩
    · rw [projectInclude,
        lookup_filter_of_keeps _ _ (fun v => rfl),
        lookup_setField]

/-- Witness for the amended C6: a concrete run with a valid center point
`"34.1,-118.1"` and a one-document collection. -/
theorem getDistances_converts_and_projects_witness :
    falsyStr (latOf "34.1,-118.1") = false
    ∧ falsyStr (lngOf "34.1,-118.1") = false
    ∧ ((getDistances (fun _ _ _ => 1000)
          [[("_id", BVal.num 1), ("name", BVal.str "Forest Hiker"), ("price", BVal.num 397)]]
          "34.1,-118.1" "km").emitted = []
        ∧ (getDistances (fun _ _ _ => 1000)
            [[("_id", BVal.num 1), ("name", BVal.str "Forest Hiker"), ("price", BVal.num 397)]]
            "34.1,-118.1" "mi").multiplierUsed = 0.000621371
        ∧ (getDistances (fun _ _ _ => 1000)
            [[("_id", BVal.num 1), ("name", BVal.str "Forest Hiker"), ("price", BVal.num 397)]]
            "34.1,-118.1" "km").multiplierUsed = 0.001
        ∧ ∃ rows,
            (getDistances (fun _ _ _ => 1000)
              [[("_id", BVal.num 1), ("name", BVal.str "Forest Hiker"), ("price", BVal.num 397)]]
              "34.1,-118.1" "km").response = some (200, "success", rows)
            ∧ rows.length
                = [[("_id", BVal.num 1), ("name", BVal.str "Forest Hiker"), ("price", BVal.num 397)]].length
            ∧ (∀ r ∈ rows,
                (∃ d ∈ [[("_id", BVal.num 1), ("name", BVal.str "Forest Hiker"), ("price", BVal.num 397)]],
                    List.lookup "distance" r
                      = some (BVal.num ((fun _ _ _ => (1000 : ℚ)) (lngOf "34.1,-118.1") (latOf "34.1,-118.1") d * multiplierOf "km")))
                ∧ ∀ k ∈ docKeys r, k = "_id" ∨ k = "distance" ∨ k = "name")
            ∧ ∀ d ∈ [[("_id", BVal.num 1), ("name", BVal.str "Forest Hiker"), ("price", BVal.num 397)]],
                ∃ r ∈ rows, List.lookup "distance" r
                  = some (BVal.num ((fun _ _ _ => (1000 : ℚ)) (lngOf "34.1,-118.1") (latOf "34.1,-118.1") d * multiplierOf "km"))) :=
  ⟨by decide, by decide,
    getDistances_converts_and_projects (fun _ _ _ => 1000)
      [[("_id", BVal.num 1), ("name", BVal.str "Forest Hiker"), ("price", BVal.num 397)]]
      "34.1,-118.1" "km" (by decide) (by decide)⟩

/-- C6 as literally stated is false: the `$project` stage of `getDistances`
retains the `_id` field, so a returned row does not contain only the
`distance` and `name` fields.  Concrete run: one document with fields
`_id`, `name`, `price`; the returned row has keys `_id`, `name`,
`distance`. -/
theorem getDistances_projection_retains_id_counterexample :
    ((getDistances (fun _ _ _ => 1000)
        [[("_id", BVal.num 1), ("name", BVal.str "Forest Hiker"), ("price", BVal.num 397)]]
        "34.1,-118.1" "km").response.map (fun t => t.2.2.map docKeys))
      = some [["_id", "name", "distance"]]
    ∧ ¬ (∀ k ∈ (["_id", "name", "distance"] : List String),
          k = "distance" ∨ k = "name") := by
  refine ⟨rfl, ?_⟩
  decide

/-- C9: in both geo handlers, every unit other than the exact string `mi`
selects the kilometer conversion (radius divisor 6378.1, distance
multiplier 0.001), and the emitted errors never depend on the unit, so no
unit value is ever rejected. -/
theorem unit_fallback_to_km {α : Type}
    (find : Option String → Option String → ℚ → List α)
    (distMeters : Option String → Option String → GeoDoc → ℚ)
    (docs : List GeoDoc) (d : ℚ) (latlng unit : String)
    (hu : unit ≠ "mi") :
    radiusOf unit d = d / 6378.1
    ∧ multiplierOf unit = 0.001
    ∧ (getToursWithin find d latlng unit).radiusUsed = d / 6378.1
    ∧ (getDistances distMeters docs latlng unit).multiplierUsed = 0.001
    ∧ (getToursWithin find d latlng unit).emitted
        = (getToursWithin find d latlng "km").emitted
    ∧ (getDistances distMeters docs latlng unit).emitted
        = (getDistances distMeters docs latlng "km").emitted
    ∧ (getToursWithin find d latlng unit).response.isSome = true
    ∧ (getDistances distMeters docs latlng unit).response.isSome = true := by
  refine ⟨?_, ?_, ?_, ?_, rfl, rfl, rfl, rfl⟩ <;>
    simp [radiusOf, multiplierOf, getToursWithin, getDistances, hu]

/-- Witness for C9 at the concrete unrecognized unit string `"miles"`. -/
theorem unit_fallback_to_km_witness :
    radiusOf "miles" 200 = 200 / 6378.1
    ∧ multiplierOf "miles" = 0.001
    ∧ (getToursWithin (fun _ _ _ => ([] : List Nat)) 200 "34.1,-118.1" "miles").radiusUsed
        = 200 / 6378.1
    ∧ (getDistances (fun _ _ _ => 0) [] "34.1,-118.1" "miles").multiplierUsed = 0.001
    ∧ (getToursWithin (fun _ _ _ => ([] : List Nat)) 200 "34.1,-118.1" "miles").emitted
        = (getToursWithin (fun _ _ _ => ([] : List Nat)) 200 "34.1,-118.1" "km").emitted
    ∧ (getDistances (fun _ _ _ => 0) [] "34.1,-118.1" "miles").emitted
        = (getDistances (fun _ _ _ => 0) [] "34.1,-118.1" "km").emitted
    ∧ (getToursWithin (fun _ _ _ => ([] : List Nat)) 200 "34.1,-118.1" "miles").response.isSome = true
    ∧ (getDistances (fun _ _ _ => 0) [] "34.1,-118.1" "miles").response.isSome = true :=
  unit_fallback_to_km (fun _ _ _ => ([] : List Nat)) (fun _ _ _ => 0) [] 200
    "34.1,-118.1" "miles" (by decide)

/-- C10: the aliasTopTours middleware overwrites exactly the `limit`,
`sort` and `fields` query keys with its fixed values and leaves every
other key of the request query unchanged. -/
theorem aliasTopTours_overwrites_exactly_three_keys (q : String → Option String) :
    aliasTopTours q "limit" = some "5"
    ∧ aliasTopTours q "sort" = some "-ratingsAverage,price"
    ∧ aliasTopTours q "fields" = some "name,price,ratingsAverage,summary,difficulty"
    ∧ ∀ k, k ≠ "limit" → k ≠ "sort" → k ≠ "fields" → aliasTopTours q k = q k := by
  refine ⟨by simp [aliasTopTours, setQueryKey], by simp [aliasTopTours, setQueryKey],
    by simp [aliasTopTours, setQueryKey], ?_⟩
  intro k h1 h2 h3
  simp [aliasTopTours, setQueryKey, h1, h2, h3]

/-- Witness for C10: with a query that maps every key to `"client"`, the
three alias keys get the fixed values and the untouched key `price` keeps
its client-supplied value. -/
theorem aliasTopTours_overwrites_exactly_three_keys_witness :
    aliasTopTours (fun _ => some "client") "limit" = some "5"
    ∧ aliasTopTours (fun _ => some "client") "sort" = some "-ratingsAverage,price"
    ∧ aliasTopTours (fun _ => some "client") "fields"
        = some "name,price,ratingsAverage,summary,difficulty"
    ∧ aliasTopTours (fun _ => some "client") "price" = some "client" :=
  ⟨(aliasTopTours_overwrites_exactly_three_keys (fun _ => some "client")).1,
    (aliasTopTours_overwrites_exactly_three_keys (fun _ => some "client")).2.1,
    (aliasTopTours_overwrites_exactly_three_keys (fun _ => some "client")).2.2.1,
    (aliasTopTours_overwrites_exactly_three_keys (fun _ => some "client")).2.2.2
      "price" (by decide) (by decide) (by decide)⟩

/-- C3: for every collection of tour documents, the stats rollup includes
exactly the documents with average rating at least 4.5 (`ratedTours`),
groups them by upper-cased difficulty (one group per distinct key, keys
exactly the upper-cased difficulties of the rated documents), computes per
group the document count, the sum of rating counts, the average rating,
the average price, and the minimum and maximum price, and returns the
groups sorted ascending by average price. -/
theorem getTourStats_rollup (tours : List Tour) :
    (∀ g ∈ getTourStats tours,
        ∃ t ∈ ratedTours tours, g.id = toUpperStr t.difficulty)
    ∧ (∀ t ∈ ratedTours tours,
        ∃ g ∈ getTourStats tours, g.id = toUpperStr t.difficulty)
    ∧ ((getTourStats tours).map StatGroup.id).Nodup
    ∧ (∀ g ∈ getTourStats tours,
        g.numTours = (tierMembers tours g.id).length
        ∧ g.numRatings = ((tierMembers tours g.id).map Tour.ratingsQuantity).sum
        ∧ g.avgRating
            = ((tierMembers tours g.id).map Tour.ratingsAverage).sum
              / (tierMembers tours g.id).length
        ∧ g.avgPrice
            = ((tierMembers tours g.id).map Tour.price).sum
              / (tierMembers tours g.id).length
        ∧ (∀ t ∈ tierMembers tours g.id,
            g.minPrice ≤ t.price ∧ t.price ≤ g.maxPrice)
        ∧ (∃ t ∈ tierMembers tours g.id, g.minPrice = t.price)
        ∧ (∃ t ∈ tierMembers tours g.id, g.maxPrice = t.price))
    ∧ ((getTourStats tours).map StatGroup.numTours).sum = (ratedTours tours).length
    ∧ (getTourStats tours).Pairwise (fun a b => a.avgPrice ≤ b.avgPrice) := by
  have hperm : List.Perm (getTourStats tours)
      ((groupBy (fun t => toUpperStr t.difficulty) (ratedTours tours)).map mkStatGroup) :=
    perm_sortLeBy _ _
  refine ⟨?_, ?_, ?_, ?_, ?_, ?_⟩
  · intro g hg
    rw [getTourStats, mem_sortLeBy, List.mem_map] at hg
    obtain ⟨⟨k, g2⟩, hkg, rfl⟩ := hg
    rcases (mem_groupBy _ _ _ _).mp hkg with ⟨⟨a, ha, hka⟩, _⟩
    exact ⟨a, ha, hka.symm⟩
  · intro t ht
    refine ⟨mkStatGroup (toUpperStr t.difficulty,
      (ratedTours tours).filter (fun a => toUpperStr a.difficulty = toUpperStr t.difficulty)),
      ?_, rfl⟩
    rw [getTourStats, mem_sortLeBy]
    exact List.mem_map.mpr ⟨_, (mem_groupBy _ _ _ _).mpr ⟨⟨t, ht, rfl⟩, rfl⟩, rfl⟩
  · have h1 := (hperm.map StatGroup.id).nodup_iff
    rw [h1, List.map_map]
    have h2 : (StatGroup.id ∘ mkStatGroup)
        = (Prod.fst : String × List Tour → String) := rfl
    rw [h2]
    exact nodup_groupBy_keys _ _
  · intro g hg
    rw [getTourStats, mem_sortLeBy, List.mem_map] at hg
    obtain ⟨⟨k, g2⟩, hkg, rfl⟩ := hg
    rcases (mem_groupBy _ _ _ _).mp hkg with ⟨⟨a, ha, hka⟩, hg2⟩
    have hM : tierMembers tours (mkStatGroup (k, g2)).id = g2 := by
      rw [tierMembers]
      exact hg2.symm
    rw [hM]
    have hamem : a ∈ g2 := by
      rw [hg2]
      exact List.mem_filter.mpr ⟨ha, by simp [hka]⟩
    rcases mkStatGroup_minmax k g2 a hamem with ⟨hmm, hattmin, hattmax⟩
    exact ⟨rfl, rfl, rfl, rfl, hmm, hattmin, hattmax⟩
  · have hsum := hperm.map StatGroup.numTours
    rw [List.Perm.sum_eq hsum, List.map_map]
    have h2 : (StatGroup.numTours ∘ mkStatGroup)
        = (fun kg : String × List Tour => kg.2.length) := rfl
    rw [h2]
    exact sum_groupBy_lengths _ _
  · rw [getTourStats]
    have hp := pairwise_sortLeBy (fun a b : StatGroup => decide (a.avgPrice ≤ b.avgPrice))
      (fun a b => by
        rcases le_total a.avgPrice b.avgPrice with h | h
        · exact Or.inl (decide_eq_true h)
        · exact Or.inr (decide_eq_true h))
      (fun a b c hab hbc =>
        decide_eq_true (le_trans (of_decide_eq_true hab) (of_decide_eq_true hbc)))
      ((groupBy (fun t => toUpperStr t.difficulty) (ratedTours tours)).map mkStatGroup)
    exact hp.imp (fun h => of_decide_eq_true h)

/-- C4 (amended): for every year and collection of tours whose start-date
months are calendar months (1-12), the monthly plan unwinds one row per
start date, keeps exactly the rows whose date lies in the inclusive window
from midnight on January 1 to midnight on December 31 of that year (NOT
the whole calendar year: a start date on December 31 strictly after
midnight UTC is dropped), groups rows by month with one group per distinct
month — in particular every start date in the window yields a group
carrying its month — gives each group the row count and the list of tour
names, returns at most 12 groups, and sorts them descending by start
count.  A tour with two start dates in the same month contributes two rows
to that month and hence 2 to its count. -/
theorem getMonthlyPlan_rollup (year : Nat) (tours : List Tour)
    (hv : ∀ t ∈ tours, ∀ d ∈ t.startDates, 1 ≤ d.month ∧ d.month ≤ 12) :
    (getMonthlyPlan year tours).length ≤ 12
    ∧ (∀ g ∈ getMonthlyPlan year tours, 1 ≤ g.month ∧ g.month ≤ 12)
    ∧ (∀ g ∈ getMonthlyPlan year tours,
        g.numTourStarts = (monthRows year tours g.month).length
        ∧ g.tours = (monthRows year tours g.month).map (fun r => r.1.name)
        ∧ ∃ t ∈ tours, ∃ d ∈ t.startDates,
            inYearWindow year (t, d) = true ∧ d.month = g.month)
    ∧ (∀ t ∈ tours, ∀ d ∈ t.startDates, inYearWindow year (t, d) = true →
        ∃ g ∈ getMonthlyPlan year tours, g.month = d.month)
    ∧ ((getMonthlyPlan year tours).map PlanGroup.month).Nodup
    ∧ (getMonthlyPlan year tours).Pairwise
        (fun a b => b.numTourStarts ≤ a.numTourStarts) := by
  have hmemrow : ∀ r ∈ (unwoundStarts tours).filter (inYearWindow year),
      (r.1 ∈ tours ∧ r.2 ∈ r.1.startDates) ∧ inYearWindow year r = true := by
    intro r hr
    rcases List.mem_filter.mp hr with ⟨hr1, hr2⟩
    rw [unwoundStarts, List.mem_flatMap] at hr1
    rcases hr1 with ⟨t, ht, hmap⟩
    rcases List.mem_map.mp hmap with ⟨d, hd, rfl⟩
    exact ⟨⟨ht, hd⟩, hr2⟩
  have hmemplan : ∀ g ∈ getMonthlyPlan year tours,
      ∃ kg ∈ groupBy (fun r : Tour × DateTime => r.2.month)
          ((unwoundStarts tours).filter (inYearWindow year)),
        g = mkPlanGroup kg := by
    intro g hg
    rw [getMonthlyPlan] at hg
    have hg2 := List.take_subset 12 _ hg
    rw [mem_sortLeBy, List.mem_map] at hg2
    rcases hg2 with ⟨kg, hkg, rfl⟩
    exact ⟨kg, hkg, rfl⟩
  have hkeysub : ∀ k ∈ dedupAux []
      (((unwoundStarts tours).filter (inYearWindow year)).map (fun r => r.2.month)),
      k ∈ List.range' 1 12 := by
    intro k hk
    rcases (mem_dedupAux k _ []).mp hk with ⟨h1, _⟩
    rcases List.mem_map.mp h1 with ⟨r, hr, rfl⟩
    rcases hmemrow r hr with ⟨⟨ht, hd⟩, _⟩
    have hb := hv r.1 ht r.2 hd
    rw [List.mem_range']
    exact ⟨r.2.month - 1, by omega, by omega⟩
  have htake : getMonthlyPlan year tours
      = sortLeBy (fun a b => decide (b.numTourStarts ≤ a.numTourStarts))
          ((groupBy (fun r : Tour × DateTime => r.2.month)
            ((unwoundStarts tours).filter (inYearWindow year))).map mkPlanGroup) := by
    rw [getMonthlyPlan]
    apply List.take_all_of_le
    rw [(perm_sortLeBy _ _).length_eq, List.length_map, groupBy, List.length_map]
    have hle := nodup_length_le _ _ (nodup_dedupAux _ _) (fun k hk => hkeysub k hk)
    rw [List.length_range'] at hle
    exact hle
  refine ⟨?_, ?_, ?_, ?_, ?_, ?_⟩
  · rw [getMonthlyPlan]
    exact List.length_take_le 12 _
  · intro g hg
    rcases hmemplan g hg with ⟨⟨m, g2⟩, hkg, rfl⟩
    rcases (mem_groupBy _ _ _ _).mp hkg with ⟨⟨r, hr, hmr⟩, _⟩
    rcases hmemrow r hr with ⟨⟨ht, hd⟩, _⟩
    have := hv r.1 ht r.2 hd
    have hmonth : (mkPlanGroup (m, g2)).month = r.2.month := hmr.symm
    rw [hmonth]
    exact this
  · intro g hg
    rcases hmemplan g hg with ⟨⟨m, g2⟩, hkg, rfl⟩
    rcases (mem_groupBy _ _ _ _).mp hkg with ⟨⟨r, hr, hmr⟩, hg2⟩
    have hM : monthRows year tours (mkPlanGroup (m, g2)).month = g2 := by
      rw [monthRows]
      exact hg2.symm
    rw [hM]
    rcases hmemrow r hr with ⟨⟨ht, hd⟩, hw⟩
    exact ⟨rfl, rfl, r.1, ht, r.2, hd, hw, hmr⟩
  · intro t ht d hd hw
    have hrow : (t, d) ∈ (unwoundStarts tours).filter (inYearWindow year) := by
      refine List.mem_filter.mpr ⟨?_, hw⟩
      rw [unwoundStarts, List.mem_flatMap]
      exact ⟨t, ht, List.mem_map.mpr ⟨d, hd, rfl⟩⟩
    refine ⟨mkPlanGroup (d.month,
      ((unwoundStarts tours).filter (inYearWindow year)).filter
        (fun r => r.2.month = d.month)), ?_, rfl⟩
    rw [htake, mem_sortLeBy]
    exact List.mem_map.mpr
      ⟨_, (mem_groupBy _ _ _ _).mpr ⟨⟨(t, d), hrow, rfl⟩, rfl⟩, rfl⟩
  · have hfull : ((sortLeBy (fun a b => decide (b.numTourStarts ≤ a.numTourStarts))
        ((groupBy (fun r : Tour × DateTime => r.2.month)
          ((unwoundStarts tours).filter (inYearWindow year))).map mkPlanGroup)).map
          PlanGroup.month).Nodup := by
      have hperm := (perm_sortLeBy
        (fun a b : PlanGroup => decide (b.numTourStarts ≤ a.numTourStarts))
        ((groupBy (fun r : Tour × DateTime => r.2.month)
          ((unwoundStarts tours).filter (inYearWindow year))).map mkPlanGroup)).map
        PlanGroup.month
      rw [hperm.nodup_iff, List.map_map]
      have h2 : (PlanGroup.month ∘ mkPlanGroup)
          = (Prod.fst : Nat × List (Tour × DateTime) → Nat) := rfl
      rw [h2]
      exact nodup_groupBy_keys _ _
    rw [getMonthlyPlan, List.map_take]
    exact hfull.sublist (List.take_sublist 12 _)
  · rw [getMonthlyPlan]
    have hp := pairwise_sortLeBy
      (fun a b : PlanGroup => decide (b.numTourStarts ≤ a.numTourStarts))
      (fun a b => by
        rcases le_total b.numTourStarts a.numTourStarts with h | h
        · exact Or.inl (decide_eq_true h)
        · exact Or.inr (decide_eq_true h))
      (fun a b c hab hbc =>
        decide_eq_true (le_trans (of_decide_eq_true hbc) (of_decide_eq_true hab)))
      ((groupBy (fun r : Tour × DateTime => r.2.month)
        ((unwoundStarts tours).filter (inYearWindow year))).map mkPlanGroup)
    exact List.Pairwise.sublist (List.take_sublist 12 _)
      (hp.imp (fun h => of_decide_eq_true h))

/-- Witness for the amended C4: one tour with two June 2021 start dates
and one May 2021 start date; the validity hypothesis is discharged by
evaluation. -/
theorem getMonthlyPlan_rollup_witness :
    (∀ t ∈ [seaExplorer], ∀ d ∈ t.startDates, 1 ≤ d.month ∧ d.month ≤ 12)
    ∧ ((getMonthlyPlan 2021 [seaExplorer]).length ≤ 12
        ∧ (∀ g ∈ getMonthlyPlan 2021 [seaExplorer], 1 ≤ g.month ∧ g.month ≤ 12)
        ∧ (∀ g ∈ getMonthlyPlan 2021 [seaExplorer],
            g.numTourStarts = (monthRows 2021 [seaExplorer] g.month).length
            ∧ g.tours = (monthRows 2021 [seaExplorer] g.month).map (fun r => r.1.name)
            ∧ ∃ t ∈ [seaExplorer], ∃ d ∈ t.startDates,
                inYearWindow 2021 (t, d) = true ∧ d.month = g.month)
        ∧ (∀ t ∈ [seaExplorer], ∀ d ∈ t.startDates,
            inYearWindow 2021 (t, d) = true →
            ∃ g ∈ getMonthlyPlan 2021 [seaExplorer], g.month = d.month)
        ∧ ((getMonthlyPlan 2021 [seaExplorer]).map PlanGroup.month).Nodup
        ∧ (getMonthlyPlan 2021 [seaExplorer]).Pairwise
            (fun a b => b.numTourStarts ≤ a.numTourStarts)) :=
  ⟨by decide, getMonthlyPlan_rollup 2021 [seaExplorer] (by decide)⟩

/-- C4 as literally stated is false: the `$match` upper bound is
`new Date('year-12-31')`, i.e. MIDNIGHT on December 31, so a start date of
December 31, 2021 at 10:00 UTC — which falls in calendar year 2021 —
is dropped and the plan for 2021 comes back empty instead of holding a
December group with count 1. -/
theorem getMonthlyPlan_dec31_counterexample :
    (⟨2021, 12, 31, 36000000⟩ : DateTime).year = 2021
    ∧ getMonthlyPlan 2021
        [{ name := "Winter Escape", difficulty := "easy", ratingsAverage := 4.8,
           ratingsQuantity := 10, price := 500,
           startDates := [⟨2021, 12, 31, 36000000⟩] }] = [] :=
  ⟨rfl, rfl⟩

/-- C5: any request whose path no mounted router matches — provided it
passes the rate limiter and the body-size cap, which act earlier in the
stack — is answered by the `app.all('*')` catch-all with HTTP 404,
envelope status `fail`, and message exactly
`Can't find <requested path> on this server!`. -/
theorem unmatched_route_404 (st : List (String × Nat)) (req : Request)
    (hroute : routedBy req.path = false)
    (hbody : req.bodySize ≤ bodyLimit)
    (hlimit : hitsWithin st req.ip req.time < maxRequests) :
    (appPipeline st req).2
      = PipelineResult.notFound (404, "fail",
          "Can't find " ++ req.path ++ " on this server!") := by
  have hnb : ¬ bodyLimit < req.bodySize := Nat.not_lt.mpr hbody
  by_cases happ : isApiPath req.path = true
  · simp [appPipeline, happ, limiterStep, hlimit, hnb, hroute,
      renderError, unmatchedRouteError]
  · have happ' : isApiPath req.path = false := by
      cases hb : isApiPath req.path with
      | true => exact absurd hb happ
      | false => rfl
    simp [appPipeline, happ', hnb, hroute, renderError, unmatchedRouteError]

/-- Witness for C5 at the spec's example path `/api/v1/nonexistent`. -/
theorem unmatched_route_404_witness :
    routedBy "/api/v1/nonexistent" = false
    ∧ (100 : Nat) ≤ bodyLimit
    ∧ hitsWithin [] "1.2.3.4" 0 < maxRequests
    ∧ (appPipeline [] ⟨"/api/v1/nonexistent", "1.2.3.4", 0, 100⟩).2
        = PipelineResult.notFound (404, "fail",
            "Can't find /api/v1/nonexistent on this server!") :=
  ⟨by decide, by decide, by decide,
    unmatched_route_404 [] ⟨"/api/v1/nonexistent", "1.2.3.4", 0, 100⟩
      (by decide) (by decide) (by decide)⟩

/-- C7: across any monotone request log, the serving decisions for one
client IP are exactly the decisions obtained from that IP's requests alone
(independence of other clients); when that IP's requests all fall within
one hour window, the decisions follow the pattern `served` for the first
100 and `rejected` with the configured message afterwards, so at most 100
of them are served, and in particular the 101st and every later one inside
the window is rejected with
`Too many requests from this IP, please try again in an hour!`. -/
theorem rateLimiter_cap (rs : List (String × Nat)) (a : String) (t0 : Nat)
    (hwin : ∀ r ∈ rs.filter (fun r => r.1 == a), t0 ≤ r.2 ∧ r.2 < t0 + windowMs)
    (hmono : rs.Pairwise (fun r s => r.2 ≤ s.2)) :
    ((processHits [] rs).filter (fun rb => rb.1.1 == a)).map (fun rb => rb.2)
        = (processHits [] (rs.filter (fun r => r.1 == a))).map (fun rb => rb.2)
    ∧ ((processHits [] rs).filter (fun rb => rb.1.1 == a)).map (fun rb => rb.2)
        = (List.range (rs.filter (fun r => r.1 == a)).length).map
            (fun i => if i < maxRequests then LimitOutcome.served
              else LimitOutcome.rejected limiterMessage)
    ∧ (((processHits [] rs).filter (fun rb => rb.1.1 == a)).map (fun rb => rb.2)).count
          LimitOutcome.served ≤ maxRequests
    ∧ ∀ i : Nat, maxRequests ≤ i → i < (rs.filter (fun r => r.1 == a)).length →
        (((processHits [] rs).filter (fun rb => rb.1.1 == a)).map (fun rb => rb.2)).get? i
          = some (LimitOutcome.rejected limiterMessage) := by
  have hind := processHits_filter_ip a rs [] [] rfl
  have hpat := processHits_window_pattern a t0 (rs.filter (fun r => r.1 == a)) []
    (fun r hr => beq_iff_eq.mp (List.mem_filter.mp hr).2)
    hwin
    (hmono.filter _)
    (fun h hh => absurd hh (List.not_mem_nil h))
  have hpat' : (processHits [] (rs.filter (fun r => r.1 == a))).map (fun rb => rb.2)
      = (List.range (rs.filter (fun r => r.1 == a)).length).map
          (fun i => if i < maxRequests then LimitOutcome.served
            else LimitOutcome.rejected limiterMessage) := by
    rw [hpat]
    refine List.map_congr_left ?_
    intro i _
    rw [show ([] : List (String × Nat)).length + i = i from Nat.zero_add i]
  have heq := hind.trans hpat'
  refine ⟨hind, heq, ?_, ?_⟩
  · rw [heq, count_served_range]
    exact Nat.min_le_right _ _
  · intro i h100 hlen
    rw [heq, List.get?_map, List.get?_range hlen]
    exact congrArg some (if_neg (Nat.not_lt.mpr h100))

/-- Witness for C7 on the concrete log `sampleHits`: two hits of IP
3.3.3.3 with another client's hit between them, all within one hour. -/
theorem rateLimiter_cap_witness :
    (∀ r ∈ sampleHits.filter (fun r => r.1 == "3.3.3.3"),
        0 ≤ r.2 ∧ r.2 < 0 + windowMs)
    ∧ sampleHits.Pairwise (fun r s => r.2 ≤ s.2)
    ∧ (((processHits [] sampleHits).filter (fun rb => rb.1.1 == "3.3.3.3")).map
            (fun rb => rb.2)
          = (processHits [] (sampleHits.filter (fun r => r.1 == "3.3.3.3"))).map
              (fun rb => rb.2)
        ∧ ((processHits [] sampleHits).filter (fun rb => rb.1.1 == "3.3.3.3")).map
            (fun rb => rb.2)
          = (List.range (sampleHits.filter (fun r => r.1 == "3.3.3.3")).length).map
              (fun i => if i < maxRequests then LimitOutcome.served
                else LimitOutcome.rejected limiterMessage)
        ∧ (((processHits [] sampleHits).filter (fun rb => rb.1.1 == "3.3.3.3")).map
              (fun rb => rb.2)).count LimitOutcome.served ≤ maxRequests
        ∧ ∀ i : Nat, maxRequests ≤ i →
            i < (sampleHits.filter (fun r => r.1 == "3.3.3.3")).length →
            (((processHits [] sampleHits).filter (fun rb => rb.1.1 == "3.3.3.3")).map
                (fun rb => rb.2)).get? i
              = some (LimitOutcome.rejected limiterMessage)) :=
  ⟨by decide, by decide,
    rateLimiter_cap sampleHits "3.3.3.3" 0 (by decide) (by decide)⟩

/-- C8: a request whose JSON body exceeds the 10 KB cap never reaches a
route handler: when it is not already rejected by the rate limiter, the
body-parsing layer rejects it, and in no case is it dispatched to a
router (`handled`) or answered by the catch-all (`notFound`). -/
theorem bodyCap_rejects (st : List (String × Nat)) (req : Request)
    (hbig : bodyLimit < req.bodySize) :
    ((isApiPath req.path = false ∨ hitsWithin st req.ip req.time < maxRequests) →
        (appPipeline st req).2 = PipelineResult.tooLarge)
    ∧ (∀ p, (appPipeline st req).2 ≠ PipelineResult.handled p)
    ∧ (∀ resp, (appPipeline st req).2 ≠ PipelineResult.notFound resp) := by
  by_cases happ : isApiPath req.path = true
  · by_cases hlim : hitsWithin st req.ip req.time < maxRequests
    · have hres : (appPipeline st req).2 = PipelineResult.tooLarge := by
        simp [appPipeline, happ, limiterStep, hlim, hbig]
      exact ⟨fun _ => hres,
        fun p h => by rw [hres] at h; exact PipelineResult.noConfusion h,
        fun resp h => by rw [hres] at h; exact PipelineResult.noConfusion h⟩
    · have hres : (appPipeline st req).2 = PipelineResult.limited limiterMessage := by
        simp [appPipeline, happ, limiterStep, hlim]
      refine ⟨fun hdisj => ?_,
        fun p h => by rw [hres] at h; exact PipelineResult.noConfusion h,
        fun resp h => by rw [hres] at h; exact PipelineResult.noConfusion h⟩
      rcases hdisj with h | h
      · rw [happ] at h
        exact Bool.noConfusion h
      · exact absurd h hlim
  · have happ' : isApiPath req.path = false := by
      cases hb : isApiPath req.path with
      | true => exact absurd hb happ
      | false => rfl
    have hres : (appPipeline st req).2 = PipelineResult.tooLarge := by
      simp [appPipeline, happ', hbig]
    exact ⟨fun _ => hres,
      fun p h => by rw [hres] at h; exact PipelineResult.noConfusion h,
      fun resp h => by rw [hres] at h; exact PipelineResult.noConfusion h⟩

/-- Witness for C8: a 20000-byte body on the tours route is rejected by
the body parser and reaches no handler. -/
theorem bodyCap_rejects_witness :
    bodyLimit < 20000
    ∧ (((isApiPath "/api/v1/tours" = false
          ∨ hitsWithin [] "9.9.9.9" 0 < maxRequests) →
        (appPipeline [] ⟨"/api/v1/tours", "9.9.9.9", 0, 20000⟩).2
          = PipelineResult.tooLarge)
      ∧ (∀ p, (appPipeline [] ⟨"/api/v1/tours", "9.9.9.9", 0, 20000⟩).2
          ≠ PipelineResult.handled p)
      ∧ (∀ resp, (appPipeline [] ⟨"/api/v1/tours", "9.9.9.9", 0, 20000⟩).2
          ≠ PipelineResult.notFound resp)) :=
  ⟨by decide, bodyCap_rejects [] ⟨"/api/v1/tours", "9.9.9.9", 0, 20000⟩ (by decide)⟩

end TourBooking
